import Mathlib

/-!
# Verification of the sql-check query validator

A shallow embedding of the `sql-check` crate (schema catalog, type lattice,
SQL-type-name parser, resolver, expression typer and statement validator),
translated from `src/crates/sql-check/src/{types.rs, schema.rs, validate.rs}`.

Modelling conventions:
* Rust `String`s are Lean `String`s; the byte-level operations of the source
  (`to_lowercase`, `trim`, `find`, slicing) act on ASCII data in every code
  path the source exercises, so they are modelled on the character list
  `String.data`.
* Rust `HashMap`s are modelled as association lists with insert-overwrite
  semantics; insertion order is used wherever the source iterates a map
  (the map iteration order of the Rust code is unspecified, which is made
  explicit where a claim depends on it).
* A Rust panic is modelled as `Option.none` in the functions that can panic
  (`parse_length` and its callers), and as the distinguished error
  `Error.Panicked` when it propagates through the validator.
* `sqlparser` object names are modelled as their lists of identifier parts.
-/

/-! ## ASCII string helpers (models of the Rust `str` operations used) -/

/-- Model of ASCII lower-casing of one character (`str::to_lowercase` /
`eq_ignore_ascii_case` act like this on the ASCII range). -/
def lowerChar (c : Char) : Char :=
  if 65 ≤ c.toNat ∧ c.toNat ≤ 90 then Char.ofNat (c.toNat + 32) else c

/-- Lower-case a character list. -/
def lowerList (l : List Char) : List Char := l.map lowerChar

/-- Lower-case a string (model of `str::to_lowercase` on ASCII data). -/
def lowerStr (s : String) : String := ⟨lowerList s.data⟩

/-- Case-insensitive string equality (model of `str::eq_ignore_ascii_case`). -/
def lowerEq (a b : String) : Bool := lowerStr a = lowerStr b

/-- Model of `str::trim` (leading and trailing whitespace removed). -/
def trimList (l : List Char) : List Char :=
  ((l.dropWhile Char.isWhitespace).reverse.dropWhile Char.isWhitespace).reverse

/-! ## `types.rs`: the type lattice -/

/-- PostgreSQL data types (source: `types.rs`, `enum PostgresType`). -/
inductive PostgresType where
  | SmallInt
  | Integer
  | BigInt
  | Real
  | DoublePrecision
  | Numeric
  | Text
  | Varchar (len : Option Nat)
  | Char (len : Option Nat)
  | Bytea
  | Boolean
  | Timestamp
  | TimestampTz
  | Date
  | Time
  | TimeTz
  | Interval
  | Uuid
  | Json
  | Jsonb
  | Inet
  | Cidr
  | MacAddr
  | Array (elem : PostgresType)
  | Custom (name : String)
deriving DecidableEq, Repr

/-- Rust types generated for query results (source: `types.rs`, `enum RustType`). -/
inductive RustType where
  | I16
  | I32
  | I64
  | F32
  | F64
  | Decimal
  | String
  | VecU8
  | Bool
  | DateTime
  | Date
  | Time
  | Duration
  | Uuid
  | JsonValue
  | IpAddr
  | Vec (inner : RustType)
  | Option (inner : RustType)
  | Custom (name : String)
deriving DecidableEq, Repr

/-- Source: `RustType::nullable` — wrap this type in `Option`. -/
def RustType.nullable (t : RustType) : RustType := RustType.Option t

/-- Source: `PostgresType::to_rust_type`. -/
def PostgresType.to_rust_type : PostgresType → RustType
  | .SmallInt => .I16
  | .Integer => .I32
  | .BigInt => .I64
  | .Real => .F32
  | .DoublePrecision => .F64
  | .Numeric => .Decimal
  | .Text | .Varchar _ | .Char _ => .String
  | .Bytea => .VecU8
  | .Boolean => .Bool
  | .Timestamp | .TimestampTz => .DateTime
  | .Date => .Date
  | .Time | .TimeTz => .Time
  | .Interval => .Duration
  | .Uuid => .Uuid
  | .Json | .Jsonb => .JsonValue
  | .Inet | .Cidr => .IpAddr
  | .MacAddr => .String
  | .Array elem => .Vec elem.to_rust_type
  | .Custom name => .Custom name

/-- Model of `str::parse::<u32>` (optional leading `+`, decimal digits,
overflow above `u32::MAX` is an error). -/
def parseU32 (l : List Char) : Option Nat :=
  let digits := match l with | '+' :: rest => rest | _ => l
  if digits.isEmpty then none
  else if digits.all Char.isDigit then
    let v := digits.foldl (fun acc c => acc * 10 + (c.toNat - 48)) 0
    if v < 4294967296 then some v else none
  else none

/-- Source: `parse_length` in `types.rs` — extract a length from forms like
`varchar(255)`. The outer `Option` models panic-freedom: the Rust slice
`s[start + 1..end]` panics when the first `)` precedes the first `(`
(slice start greater than slice end), which is modelled by `none`. -/
def parse_length (l : List Char) : Option (Option Nat) :=
  match l.findIdx? (· = '(') with
  | none => some none
  | some start =>
    match l.findIdx? (· = ')') with
    | none => some none
    | some stop =>
      if stop < start + 1 then none
      else some (parseU32 ((l.drop (start + 1)).take (stop - (start + 1))))

/-- The non-array arms of `PostgresType::from_sql_name`, acting on the
already lower-cased and trimmed name (source: the `match &*name_lower` in
`types.rs`). `none` models a panic propagated from `parse_length`. -/
def from_sql_name_base (nl : List Char) : Option PostgresType :=
  let s : String := ⟨nl⟩
  if s = "smallint" ∨ s = "int2" then some .SmallInt
  else if s = "integer" ∨ s = "int" ∨ s = "int4" then some .Integer
  else if s = "bigint" ∨ s = "int8" then some .BigInt
  else if s = "real" ∨ s = "float4" then some .Real
  else if s = "double precision" ∨ s = "float8" then some .DoublePrecision
  else if s = "numeric" ∨ s = "decimal" then some .Numeric
  else if s = "text" then some .Text
  else if s = "character varying" ∨ s = "varchar" then some (.Varchar none)
  else if s = "character" ∨ s = "char" then some (.Char none)
  else if s = "bytea" then some .Bytea
  else if s = "boolean" ∨ s = "bool" then some .Boolean
  else if s = "timestamp without time zone" ∨ s = "timestamp" then some .Timestamp
  else if s = "timestamp with time zone" ∨ s = "timestamptz" then some .TimestampTz
  else if s = "date" then some .Date
  else if s = "time without time zone" ∨ s = "time" then some .Time
  else if s = "time with time zone" ∨ s = "timetz" then some .TimeTz
  else if s = "interval" then some .Interval
  else if s = "uuid" then some .Uuid
  else if s = "json" then some .Json
  else if s = "jsonb" then some .Jsonb
  else if s = "inet" then some .Inet
  else if s = "cidr" then some .Cidr
  else if s = "macaddr" then some .MacAddr
  else if "character varying".data.isPrefixOf nl ∨ "varchar".data.isPrefixOf nl then
    (parse_length nl).map PostgresType.Varchar
  else if "character".data.isPrefixOf nl ∨ "char".data.isPrefixOf nl then
    (parse_length nl).map PostgresType.Char
  else some (.Custom s)

theorem lowerList_length (l : List Char) : (lowerList l).length = l.length :=
  List.length_map ..

theorem length_dropWhile_le (p : Char → Bool) (l : List Char) :
    (l.dropWhile p).length ≤ l.length :=
  (List.dropWhile_sublist p).length_le

theorem trimList_length_le (l : List Char) : (trimList l).length ≤ l.length := by
  unfold trimList
  calc ((l.dropWhile Char.isWhitespace).reverse.dropWhile Char.isWhitespace).reverse.length
      = ((l.dropWhile Char.isWhitespace).reverse.dropWhile Char.isWhitespace).length :=
        List.length_reverse ..
    _ ≤ (l.dropWhile Char.isWhitespace).reverse.length := length_dropWhile_le ..
    _ = (l.dropWhile Char.isWhitespace).length := List.length_reverse ..
    _ ≤ l.length := length_dropWhile_le ..

/-- Source: `PostgresType::from_sql_name`. Lower-cases and trims the input,
strips the two array syntaxes (`T[]` and `T ARRAY`) recursively, and otherwise
delegates to the non-array arms. `none` models a Rust panic. -/
def from_sql_name (l : List Char) : Option PostgresType :=
  let nl := trimList (lowerList l)
  if h : 2 ≤ nl.length ∧ nl.drop (nl.length - 2) = "[]".data then
    (from_sql_name (nl.take (nl.length - 2))).map PostgresType.Array
  else if h2 : 6 ≤ nl.length ∧ nl.drop (nl.length - 6) = " array".data then
    (from_sql_name (nl.take (nl.length - 6))).map PostgresType.Array
  else
    from_sql_name_base nl
termination_by l.length
decreasing_by
  · have h1 := trimList_length_le (lowerList l)
    rw [lowerList_length] at h1
    unfold nl at h
    simp only [List.length_take]
    omega
  · have h1 := trimList_length_le (lowerList l)
    rw [lowerList_length] at h1
    unfold nl at h2
    simp only [List.length_take]
    omega

/-- `from_sql_name` on a `String` (the Rust function's signature). -/
def from_sql_nameS (s : String) : Option PostgresType := from_sql_name s.data

/-! ## Association lists: model of Rust `HashMap` (insert-overwrite, keyed lookup) -/

/-- Insert with overwrite (model of `HashMap::insert`); insertion order of
fresh keys is kept so that map contents stay deterministic in the model. -/
def alistInsert {α : Type} (l : List (String × α)) (k : String) (v : α) :
    List (String × α) :=
  if l.any (fun p => p.1 = k) then l.map (fun p => if p.1 = k then (k, v) else p)
  else l ++ [(k, v)]

/-- Keyed lookup (model of `HashMap::get`). -/
def alistLookup {α : Type} (l : List (String × α)) (k : String) : Option α :=
  (l.find? (fun p => p.1 = k)).map (·.2)

/-! ## `error.rs`: the error taxonomy -/

/-- Source: `error.rs`, `enum Error`. The extra `Panicked` constructor is not a
variant of the Rust enum: it models a Rust panic propagating out of the
validator (see `parse_length`). -/
inductive Error where
  | SchemaParse (reason : String)
  | QueryParse (reason : String)
  | UnknownTable (name : String)
  | UnknownColumn (table : String) (column : String)
  | AmbiguousColumn (name : String)
  | TypeMismatch (expected : String) (actual : String)
  | InvalidQuery (reason : String)
  | IoErr (cause : String)
  | Panicked (what : String)
deriving DecidableEq, Repr

/-! ## `sqlparser` AST fragments used by `schema.rs` -/

/-- Source: `sqlparser::ast::CharacterLength` (the arms `schema.rs` matches). -/
inductive CharacterLength where
  | IntegerLength (length : Nat)
  | Max
deriving DecidableEq, Repr

/-- Source: `sqlparser::ast::TimezoneInfo` (with/without time zone). -/
inductive TimezoneInfo where
  | WithTimeZone
  | Tz
  | NoTz
deriving DecidableEq, Repr

mutual
/-- Source: `sqlparser::ast::DataType` (the arms `data_type_to_postgres`
matches on; `otherType` stands for all remaining arms and carries the string
the Rust fallback would produce with `format!("{:?}", other)`). -/
inductive DataType where
  | SmallInt
  | Int
  | Integer
  | BigInt
  | Real
  | Double
  | DoublePrecision
  | Numeric
  | Decimal
  | Text
  | Varchar (len : Option CharacterLength)
  | Char (len : Option CharacterLength)
  | CharacterVarying (len : Option CharacterLength)
  | Character (len : Option CharacterLength)
  | Bytea
  | Boolean
  | Bool
  | Timestamp (tz : TimezoneInfo)
  | Date
  | Time (tz : TimezoneInfo)
  | Interval
  | Uuid
  | JSONB
  | JsonType
  | ArrayType (elem : ArrayElemTypeDef)
  | Custom (name : List String)
  | otherType (debug : String)

/-- Source: `sqlparser::ast::ArrayElemTypeDef`. -/
inductive ArrayElemTypeDef where
  | AngleBracket (dt : DataType)
  | SquareBracket (dt : DataType)
  | Parenthesis (dt : DataType)
  | NoneElem
end

/-- Source: `sqlparser::ast::ColumnOption` (the arms `from_column_def`
matches on; `otherOption` stands for all remaining arms). -/
inductive ColumnOption where
  | NotNull
  | Null
  | DefaultVal
  | PrimaryKey
  | UniqueOpt
  | otherOption
deriving DecidableEq, Repr

/-- Source: `sqlparser::ast::ColumnDef` (fields used by `schema.rs`). -/
structure ColumnDef where
  name : String
  data_type : DataType
  options : List ColumnOption

/-- Source: `sqlparser::ast::TableConstraint`. Index columns whose expression
is a plain identifier are modelled by their names (the source ignores any
other expression shape). -/
inductive TableConstraint where
  | PrimaryKeyC (columns : List String)
  | UniqueC (columns : List String)
  | otherConstraint

/-- Source: `sqlparser::ast::CreateTable` (fields used by `schema.rs`);
the object name is modelled as its list of identifier parts. -/
structure CreateTable where
  name : List String
  columns : List ColumnDef
  constraints : List TableConstraint

/-- Source: a top-level `sqlparser::ast::Statement` as seen by
`Schema::from_sql` (everything except `CREATE TABLE` is ignored). -/
inductive DdlStatement where
  | CreateTableStmt (create : CreateTable)
  | otherDdl

/-! ## `schema.rs`: catalog builder -/

/-- Source: `schema.rs`, `struct Column`. -/
structure Column where
  name : String
  data_type : PostgresType
  nullable : Bool
  has_default : Bool
  is_primary_key : Bool
  is_unique : Bool
deriving DecidableEq, Repr

/-- Source: `object_name_to_string` — identifier parts joined with `.`. -/
def object_name_to_string (name : List String) : String :=
  String.intercalate "." name

/-- Source: `extract_char_length`. -/
def extract_char_length : Option CharacterLength → Option Nat
  | some (.IntegerLength length) => some length
  | some .Max => none
  | none => none

/-- Source: `data_type_to_postgres`. -/
def data_type_to_postgres : DataType → Except Error PostgresType
  | .SmallInt => .ok .SmallInt
  | .Int | .Integer => .ok .Integer
  | .BigInt => .ok .BigInt
  | .Real => .ok .Real
  | .Double | .DoublePrecision => .ok .DoublePrecision
  | .Numeric | .Decimal => .ok .Numeric
  | .Text => .ok .Text
  | .Varchar len => .ok (.Varchar (extract_char_length len))
  | .Char len => .ok (.Char (extract_char_length len))
  | .CharacterVarying len => .ok (.Varchar (extract_char_length len))
  | .Character len => .ok (.Char (extract_char_length len))
  | .Bytea => .ok .Bytea
  | .Boolean | .Bool => .ok .Boolean
  | .Timestamp tz =>
    .ok (if tz = .WithTimeZone ∨ tz = .Tz then .TimestampTz else .Timestamp)
  | .Date => .ok .Date
  | .Time tz =>
    .ok (if tz = .WithTimeZone ∨ tz = .Tz then .TimeTz else .Time)
  | .Interval => .ok .Interval
  | .Uuid => .ok .Uuid
  | .JsonType => .ok .Json
  | .JSONB => .ok .Jsonb
  | .ArrayType inner =>
    match inner with
    | .AngleBracket dt | .SquareBracket dt | .Parenthesis dt =>
      (data_type_to_postgres dt).map PostgresType.Array
    | .NoneElem => .error (.SchemaParse "Array with no element type")
  | .Custom name => .ok (.Custom (object_name_to_string name))
  | .otherType debug => .ok (.Custom debug)

/-- One step of the option loop in `Column::from_column_def`. -/
def apply_column_option (c : Column) : ColumnOption → Column
  | .NotNull => { c with nullable := false }
  | .Null => { c with nullable := true }
  | .DefaultVal => { c with has_default := true }
  | .PrimaryKey => { c with is_primary_key := true, nullable := false }
  | .UniqueOpt => { c with is_unique := true }
  | .otherOption => c

/-- Source: `Column::from_column_def`. -/
def Column.from_column_def (cd : ColumnDef) : Except Error Column := do
  let dt ← data_type_to_postgres cd.data_type
  let init : Column :=
    { name := cd.name, data_type := dt, nullable := true, has_default := false
      is_primary_key := false, is_unique := false }
  .ok (cd.options.foldl apply_column_option init)

/-- Source: `schema.rs`, `struct Table`. `column_map` maps lower-cased column
names to indices into `columns`. -/
structure Table where
  name : String
  columns : List Column
  column_map : List (String × Nat)
deriving DecidableEq, Repr

/-- Source: `Table::get_column`. -/
def Table.get_column (t : Table) (name : String) : Option Column :=
  (alistLookup t.column_map (lowerStr name)).bind fun idx => t.columns.get? idx

/-- Source: `Table::has_column`. -/
def Table.has_column (t : Table) (name : String) : Bool :=
  (t.get_column name).isSome

/-- First pass of `Table::from_create_table`: extract the columns and build
the by-name index. -/
def build_columns :
    List ColumnDef → Nat → List Column → List (String × Nat) →
    Except Error (List Column × List (String × Nat))
  | [], _, cols, cmap => .ok (cols, cmap)
  | cd :: rest, idx, cols, cmap => do
    let c ← Column.from_column_def cd
    build_columns rest (idx + 1) (cols ++ [c])
      (alistInsert cmap (lowerStr c.name) idx)

/-- Update the column at index `i` (model of `columns[idx].field = …`). -/
def setColumnAt (cols : List Column) (i : Nat) (f : Column → Column) :
    List Column :=
  match cols.get? i with
  | some c => cols.set i (f c)
  | none => cols

/-- Mark the named columns primary-key and non-nullable (the
`TableConstraint::PrimaryKey` arm of the second pass). -/
def mark_primary_key (cmap : List (String × Nat)) (cols : List Column)
    (names : List String) : List Column :=
  names.foldl
    (fun cols n =>
      match alistLookup cmap (lowerStr n) with
      | some idx =>
        setColumnAt cols idx
          (fun c => { c with is_primary_key := true, nullable := false })
      | none => cols)
    cols

/-- Mark the named columns unique (the `TableConstraint::Unique` arm). -/
def mark_unique (cmap : List (String × Nat)) (cols : List Column)
    (names : List String) : List Column :=
  names.foldl
    (fun cols n =>
      match alistLookup cmap (lowerStr n) with
      | some idx => setColumnAt cols idx (fun c => { c with is_unique := true })
      | none => cols)
    cols

/-- Second pass of `Table::from_create_table`: apply table constraints. -/
def apply_constraints (cmap : List (String × Nat)) :
    List Column → List TableConstraint → List Column
  | cols, [] => cols
  | cols, .PrimaryKeyC names :: rest =>
    apply_constraints cmap (mark_primary_key cmap cols names) rest
  | cols, .UniqueC names :: rest =>
    apply_constraints cmap (mark_unique cmap cols names) rest
  | cols, .otherConstraint :: rest => apply_constraints cmap cols rest

/-- Source: `Table::from_create_table`. -/
def Table.from_create_table (create : CreateTable) : Except Error Table := do
  let name := object_name_to_string create.name
  let (columns, column_map) ← build_columns create.columns 0 [] []
  let columns := apply_constraints column_map columns create.constraints
  .ok { name := name, columns := columns, column_map := column_map }

/-- Source: `schema.rs`, `struct Schema` — tables keyed by `table.name`
(the original spelling, not a case-folded key). -/
structure Schema where
  tables : List (String × Table)
deriving DecidableEq, Repr

/-- Source: `Schema::get_table` — exact-key lookup first, then a
case-insensitive scan of the stored tables. -/
def Schema.get_table (s : Schema) (name : String) : Option Table :=
  match alistLookup s.tables name with
  | some t => some t
  | none =>
    (s.tables.map (·.2)).find? (fun t => lowerStr t.name = lowerStr name)

/-- Source: `Schema::has_table`. -/
def Schema.has_table (s : Schema) (name : String) : Bool :=
  (s.get_table name).isSome

/-- Source: the statement loop of `Schema::from_sql` (parsing is the
upstream `sqlparser` black box; this consumes its statement list). -/
def Schema.from_statements (stmts : List DdlStatement) : Except Error Schema :=
  go stmts { tables := [] }
where
  go : List DdlStatement → Schema → Except Error Schema
    | [], s => .ok s
    | .CreateTableStmt create :: rest, s => do
      let table ← Table.from_create_table create
      go rest { tables := alistInsert s.tables table.name table }
    | .otherDdl :: rest, s => go rest s

/-! ## `sqlparser` AST fragments used by `validate.rs` -/

/-- Source: `sqlparser::ast::Value` (the arms `infer_expr_type` matches). -/
inductive SqlValue where
  | Number (s : String)
  | SingleQuotedString (s : String)
  | BooleanVal (b : Bool)
  | Null
  | otherValue
deriving DecidableEq, Repr

mutual
/-- Source: `sqlparser::ast::Expr` (the arms `infer_expr_type` matches on;
`otherExpr` stands for every remaining arm, which the source sends to the
permissive fallback). The payloads of `Extract`, `Ceil`, `Floor`, `Position`,
`Substring`, `Trim` and `Overlay` are ignored by the source (`{ .. }`
patterns) and therefore not modelled. `Cast` carries the string
`format!("{}", data_type)` that the source feeds to
`PostgresType::from_sql_name`. Function names are lists of identifier
parts. -/
inductive Expr where
  | Identifier (value : String)
  | CompoundIdentifier (idents : List String)
  | Function (name : List String) (args : FunctionArguments)
  | Value (v : SqlValue)
  | Cast (e : Expr) (data_type : String)
  | BinaryOp (left : Expr) (right : Expr)
  | Nested (e : Expr)
  | Extract
  | Ceil
  | Floor
  | Position
  | Substring
  | Trim
  | Overlay
  | otherExpr

/-- Source: `sqlparser::ast::FunctionArgExpr`. -/
inductive FunctionArgExpr where
  | ExprArg (e : Expr)
  | WildcardArg
  | QualifiedWildcardArg

/-- Source: `sqlparser::ast::FunctionArg`. -/
inductive FunctionArg where
  | Unnamed (arg : FunctionArgExpr)
  | NamedArg

/-- Source: `sqlparser::ast::FunctionArguments`. -/
inductive FunctionArguments where
  | NoneArgs
  | Subquery
  | ArgList (args : List FunctionArg)
end

/-- Source: `sqlparser::ast::SetOperator`. -/
inductive SetOperator where
  | Union
  | Intersect
  | Except
  | Minus
deriving DecidableEq, Repr

/-- Source: `sqlparser::ast::SelectItemQualifiedWildcardKind`; the object
name is modelled as its identifier parts. -/
inductive SelectItemQualifiedWildcardKind where
  | ObjectNameKind (parts : List String)
  | ExprKind

/-- Source: `sqlparser::ast::SelectItem`. -/
inductive SelectItem where
  | UnnamedExpr (e : Expr)
  | ExprWithAlias (e : Expr) (alias_ : String)
  | Wildcard
  | QualifiedWildcard (kind : SelectItemQualifiedWildcardKind)

/-- Source: `sqlparser::ast::JoinOperator` (constraint payloads ignored by
the source are not modelled; `otherJoin` covers the remaining arms, which
the source treats like INNER/CROSS). -/
inductive JoinOperator where
  | Left
  | LeftOuter
  | LeftSemi
  | LeftAnti
  | Right
  | RightOuter
  | RightSemi
  | RightAnti
  | FullOuter
  | Inner
  | CrossJoin
  | otherJoin
deriving DecidableEq, Repr

/-- Source: `sqlparser::ast::TableFactor`. `TableF` is `TableFactor::Table`
(name as identifier parts); `Derived` keeps only the alias, the single field
the source reads. -/
inductive TableFactor where
  | TableF (name : List String) (alias_ : Option String)
  | Derived (alias_ : Option String)
  | otherFactor
deriving DecidableEq, Repr

/-- Source: `sqlparser::ast::Join` (fields used). -/
structure Join where
  join_operator : JoinOperator
  relation : TableFactor
deriving DecidableEq, Repr

/-- Source: `sqlparser::ast::TableWithJoins`. -/
structure TableWithJoins where
  relation : TableFactor
  joins : List Join

/-- Source: `sqlparser::ast::Select` (fields used by the validator). -/
structure Select where
  projection : List SelectItem
  from_ : List TableWithJoins

mutual
/-- Source: `sqlparser::ast::Query` (fields used: the optional WITH clause
as its CTE list, and the body). -/
inductive Query where
  | mk (withCtes : Option (List Cte)) (body : SetExpr)

/-- Source: `sqlparser::ast::Cte` — alias name, optional explicit column
aliases, and the CTE's query. -/
inductive Cte where
  | mk (alias_name : String) (alias_columns : List String) (query : Query)

/-- Source: `sqlparser::ast::SetExpr` (arms matched by `validate_set_expr`). -/
inductive SetExpr where
  | SelectE (sel : Select)
  | SetOperation (op : SetOperator) (left : SetExpr) (right : SetExpr)
  | QueryE (q : Query)
  | otherSetExpr
end

/-! ## `validate.rs`: query-time structures -/

/-- Source: `validate.rs`, `struct QueryColumn`. -/
structure QueryColumn where
  name : String
  rust_type : RustType
deriving DecidableEq, Repr

/-- Source: `validate.rs`, `struct QueryResult`. -/
structure QueryResult where
  columns : List QueryColumn
deriving DecidableEq, Repr

/-- Source: `validate.rs`, `struct CteDefinition`. -/
structure CteDefinition where
  columns : List QueryColumn
deriving DecidableEq, Repr

/-- Source: `validate.rs`, `struct ResolveContext`. `table_aliases` and
`cte_definitions` are Rust `HashMap`s modelled as association lists (see the
header); `nullable_tables` is a `Vec`. -/
structure ResolveContext where
  table_aliases : List (String × String)
  nullable_tables : List String
  cte_definitions : List (String × CteDefinition)
deriving DecidableEq, Repr

/-- `ResolveContext::default()`. -/
def ResolveContext.empty : ResolveContext := ⟨[], [], []⟩

/-- Source: `ResolveContext::is_nullable_table`. -/
def ResolveContext.is_nullable_table (ctx : ResolveContext) (table : String) :
    Bool :=
  ctx.nullable_tables.any (fun t => lowerEq t table)

/-- Source: `ResolveContext::mark_nullable`. -/
def ResolveContext.mark_nullable (ctx : ResolveContext) (table : String) :
    ResolveContext :=
  let lower := lowerStr table
  if ctx.nullable_tables.any (fun t => t = lower) then ctx
  else { ctx with nullable_tables := ctx.nullable_tables ++ [lower] }

/-- Source: `ResolveContext::get_cte`. -/
def ResolveContext.get_cte (ctx : ResolveContext) (name : String) :
    Option CteDefinition :=
  alistLookup ctx.cte_definitions (lowerStr name)

/-- Source: `ResolveContext::add_cte`. -/
def ResolveContext.add_cte (ctx : ResolveContext) (name : String)
    (columns : List QueryColumn) : ResolveContext :=
  { ctx with
    cte_definitions :=
      alistInsert ctx.cte_definitions (lowerStr name) ⟨columns⟩ }

/-- The `"_cte:"` marker test (source: `table_ref.strip_prefix("_cte:")`). -/
def cte_ref_name (table_ref : String) : Option String :=
  if "_cte:".data.isPrefixOf table_ref.data then some ⟨table_ref.data.drop 5⟩
  else none

/-! ## `validate.rs`: resolver -/

/-- Source: `get_table_alias`. -/
def get_table_alias : TableFactor → Option String
  | .TableF name alias_ => alias_.orElse fun _ => name.getLast?
  | .Derived (some a) => some a
  | .Derived none => none
  | .otherFactor => none

/-- Source: `resolve_table_factor`. -/
def resolve_table_factor (schema : Schema) (factor : TableFactor)
    (ctx : ResolveContext) : Except Error ResolveContext :=
  match factor with
  | .TableF name alias_ =>
    match name.getLast? with
    | none => .error (.InvalidQuery "Empty table name")
    | some table_name =>
      let alias_name := alias_.getD table_name
      if (ctx.get_cte table_name).isSome then
        .ok { ctx with
          table_aliases :=
            alistInsert ctx.table_aliases (lowerStr alias_name)
              ("_cte:" ++ lowerStr table_name) }
      else if ¬ schema.has_table table_name then
        .error (.UnknownTable table_name)
      else
        .ok { ctx with
          table_aliases :=
            alistInsert ctx.table_aliases (lowerStr alias_name) table_name }
  | .Derived (some a) =>
    .ok { ctx with
      table_aliases := alistInsert ctx.table_aliases (lowerStr a) "_subquery" }
  | .Derived none => .ok ctx
  | .otherFactor => .ok ctx

/-- The JOIN loop of `resolve_table_refs`, processing joins left-to-right. -/
def resolve_joins (schema : Schema) (first_table_alias : Option String) :
    List Join → ResolveContext → Except Error ResolveContext
  | [], ctx => .ok ctx
  | join :: rest, ctx =>
    match join.join_operator with
    | .Left | .LeftOuter | .LeftSemi | .LeftAnti => do
      let ctx ← resolve_table_factor schema join.relation ctx
      let ctx :=
        match get_table_alias join.relation with
        | some alias_ => ctx.mark_nullable alias_
        | none => ctx
      resolve_joins schema first_table_alias rest ctx
    | .Right | .RightOuter | .RightSemi | .RightAnti => do
      let ctx ← resolve_table_factor schema join.relation ctx
      let ctx :=
        match first_table_alias with
        | some alias_ => ctx.mark_nullable alias_
        | none => ctx
      resolve_joins schema first_table_alias rest ctx
    | .FullOuter => do
      let ctx ← resolve_table_factor schema join.relation ctx
      let ctx :=
        match first_table_alias with
        | some alias_ => ctx.mark_nullable alias_
        | none => ctx
      let ctx :=
        match get_table_alias join.relation with
        | some alias_ => ctx.mark_nullable alias_
        | none => ctx
      resolve_joins schema first_table_alias rest ctx
    | _ => do
      let ctx ← resolve_table_factor schema join.relation ctx
      resolve_joins schema first_table_alias rest ctx

/-- Source: `resolve_table_refs`. -/
def resolve_table_refs (schema : Schema) (twj : TableWithJoins)
    (ctx : ResolveContext) : Except Error ResolveContext := do
  let first_table_alias := get_table_alias twj.relation
  let ctx ← resolve_table_factor schema twj.relation ctx
  resolve_joins schema first_table_alias twj.joins ctx

/-- The FROM-clause loop of `validate_select_body_with_ctx`. -/
def resolve_froms (schema : Schema) :
    List TableWithJoins → ResolveContext → Except Error ResolveContext
  | [], ctx => .ok ctx
  | twj :: rest, ctx => do
    resolve_froms schema rest (← resolve_table_refs schema twj ctx)

/-! ## `validate.rs`: expression typer -/

/-- Source: `find_column_in_ctes` — the loop over `ctx.table_aliases`
carrying the `found` accumulator; a second match returns `None`
(the source's deliberate fall-through, not `AmbiguousColumn`). -/
def find_column_in_ctes_go (ctx : ResolveContext) (col_name : String) :
    List (String × String) → Option (String × RustType) →
    Option (String × RustType)
  | [], found => found
  | (alias_, table_ref) :: rest, found =>
    match cte_ref_name table_ref with
    | some cte_name =>
      match ctx.get_cte cte_name with
      | some cte =>
        match cte.columns.find? (fun c => lowerEq c.name col_name) with
        | some col =>
          if found.isSome then none
          else
            find_column_in_ctes_go ctx col_name rest
              (some (alias_, col.rust_type))
        | none => find_column_in_ctes_go ctx col_name rest found
      | none => find_column_in_ctes_go ctx col_name rest found
    | none => find_column_in_ctes_go ctx col_name rest found

/-- Source: `find_column_in_ctes`. -/
def find_column_in_ctes (ctx : ResolveContext) (col_name : String) :
    Option (String × RustType) :=
  find_column_in_ctes_go ctx col_name ctx.table_aliases none

/-- Source: `find_column_in_tables` — the loop over `ctx.table_aliases`
(CTE references skipped); a second match is `AmbiguousColumn`, no match is
`UnknownColumn` against the `<unknown>` relation. -/
def find_column_in_tables_go (schema : Schema) (col_name : String) :
    List (String × String) → Option (String × Column) →
    Except Error (String × Column)
  | [], found =>
    match found with
    | some f => .ok f
    | none => .error (.UnknownColumn "<unknown>" col_name)
  | (alias_, table_name) :: rest, found =>
    if "_cte:".data.isPrefixOf table_name.data then
      find_column_in_tables_go schema col_name rest found
    else
      match schema.get_table table_name with
      | some table =>
        match table.get_column col_name with
        | some col =>
          if found.isSome then .error (.AmbiguousColumn col_name)
          else find_column_in_tables_go schema col_name rest (some (alias_, col))
        | none => find_column_in_tables_go schema col_name rest found
      | none => find_column_in_tables_go schema col_name rest found

/-- Source: `find_column_in_tables`. -/
def find_column_in_tables (schema : Schema) (ctx : ResolveContext)
    (col_name : String) : Except Error (String × Column) :=
  find_column_in_tables_go schema col_name ctx.table_aliases none

mutual
/-- Source: `infer_expr_type`. -/
def infer_expr_type (schema : Schema) (ctx : ResolveContext) (expr : Expr) :
    Except Error (String × RustType) :=
  match expr with
  | .Identifier value =>
    let col_name := value
    match find_column_in_ctes ctx col_name with
    | some (table_alias, rust_type) =>
      .ok (col_name,
        if ctx.is_nullable_table table_alias then rust_type.nullable
        else rust_type)
    | none => do
      let (table_alias, col) ← find_column_in_tables schema ctx col_name
      let rust_type := col.data_type.to_rust_type
      .ok (col_name,
        if col.nullable || ctx.is_nullable_table table_alias then
          rust_type.nullable
        else rust_type)
  | .CompoundIdentifier idents =>
    match idents with
    | [table_alias, col_name] =>
      (match alistLookup ctx.table_aliases (lowerStr table_alias) with
      | none => .error (.UnknownTable table_alias)
      | some table_ref =>
        match cte_ref_name table_ref with
        | some cte_name =>
          (match ctx.get_cte cte_name with
          | none => .error (.UnknownTable cte_name)
          | some cte =>
            match cte.columns.find? (fun c => lowerEq c.name col_name) with
            | none => .error (.UnknownColumn cte_name col_name)
            | some cte_col =>
              .ok (col_name,
                if ctx.is_nullable_table table_alias then
                  cte_col.rust_type.nullable
                else cte_col.rust_type))
        | none =>
          match schema.get_table table_ref with
          | none => .error (.UnknownTable table_ref)
          | some table =>
            match table.get_column col_name with
            | none => .error (.UnknownColumn table_ref col_name)
            | some col =>
              let rust_type := col.data_type.to_rust_type
              .ok (col_name,
                if col.nullable || ctx.is_nullable_table table_alias then
                  rust_type.nullable
                else rust_type))
    | _ =>
      .error (.InvalidQuery
        s!"Expected table.column, got {idents.length} parts")
  | .Function name args =>
    let func_name := ((name.getLast?).map lowerStr).getD ""
    if func_name = "count" then .ok (func_name, .I64)
    else if func_name = "sum" then .ok (func_name, .Option .Decimal)
    else if func_name = "avg" then .ok (func_name, .Option .Decimal)
    else if func_name = "min" ∨ func_name = "max" then do
      match ← get_first_arg_type schema ctx args with
      | some inner_type =>
        let inner :=
          match inner_type with
          | .Option t => t
          | t => t
        .ok (func_name, .Option inner)
      | none => .ok (func_name, .Option .String)
    else if func_name = "coalesce" then do
      match ← get_first_arg_type schema ctx args with
      | some inner_type =>
        .ok (func_name,
          match inner_type with
          | .Option t => t
          | t => t)
      | none => .ok (func_name, .String)
    else if func_name = "now" then .ok (func_name, .DateTime)
    else if func_name = "upper" ∨ func_name = "lower" ∨ func_name = "initcap"
      then .ok (func_name, .String)
    else if func_name = "concat" ∨ func_name = "concat_ws" then
      .ok (func_name, .String)
    else if func_name = "substring" ∨ func_name = "substr" ∨
        func_name = "left" ∨ func_name = "right" then .ok (func_name, .String)
    else if func_name = "trim" ∨ func_name = "ltrim" ∨ func_name = "rtrim" ∨
        func_name = "btrim" then .ok (func_name, .String)
    else if func_name = "replace" ∨ func_name = "translate" ∨
        func_name = "reverse" ∨ func_name = "repeat" then
      .ok (func_name, .String)
    else if func_name = "lpad" ∨ func_name = "rpad" then .ok (func_name, .String)
    else if func_name = "split_part" then .ok (func_name, .String)
    else if func_name = "overlay" ∨ func_name = "format" then
      .ok (func_name, .String)
    else if func_name = "quote_ident" ∨ func_name = "quote_literal" ∨
        func_name = "quote_nullable" then .ok (func_name, .String)
    else if func_name = "encode" ∨ func_name = "decode" then
      .ok (func_name, .String)
    else if func_name = "md5" ∨ func_name = "sha256" ∨ func_name = "sha384" ∨
        func_name = "sha512" then .ok (func_name, .String)
    else if func_name = "to_hex" then .ok (func_name, .String)
    else if func_name = "chr" then .ok (func_name, .String)
    else if func_name = "regexp_replace" ∨ func_name = "regexp_substr" ∨
        func_name = "regexp_match" then .ok (func_name, .String)
    else if func_name = "length" ∨ func_name = "char_length" ∨
        func_name = "character_length" ∨ func_name = "octet_length" ∨
        func_name = "bit_length" then .ok (func_name, .I32)
    else if func_name = "position" ∨ func_name = "strpos" then
      .ok (func_name, .I32)
    else if func_name = "ascii" then .ok (func_name, .I32)
    else if func_name = "extract" ∨ func_name = "date_part" then
      .ok (func_name, .F64)
    else if func_name = "date_trunc" then .ok (func_name, .DateTime)
    else if func_name = "age" then .ok (func_name, .Duration)
    else if func_name = "to_char" then .ok (func_name, .String)
    else if func_name = "to_date" then .ok (func_name, .Date)
    else if func_name = "to_timestamp" then .ok (func_name, .DateTime)
    else if func_name = "current_date" then .ok (func_name, .Date)
    else if func_name = "current_time" then .ok (func_name, .Time)
    else if func_name = "current_timestamp" ∨ func_name = "localtimestamp" ∨
        func_name = "localtime" then .ok (func_name, .DateTime)
    else if func_name = "make_date" then .ok (func_name, .Date)
    else if func_name = "make_time" then .ok (func_name, .Time)
    else if func_name = "make_timestamp" ∨ func_name = "make_timestamptz" then
      .ok (func_name, .DateTime)
    else if func_name = "make_interval" then .ok (func_name, .Duration)
    else .ok (func_name, .Custom func_name)
  | .Value v =>
    let rust_type : RustType :=
      match v with
      | .Number _ => .I64
      | .SingleQuotedString _ => .String
      | .BooleanVal _ => .Bool
      | .Null => .Option .String
      | .otherValue => .String
    .ok ("?column?", rust_type)
  | .Cast e data_type =>
    match from_sql_nameS data_type with
    | none => .error (.Panicked "parse_length: slice start exceeds slice end")
    | some pt => do
      let (name, _) ← infer_expr_type schema ctx e
      .ok (name, pt.to_rust_type)
  | .BinaryOp left _ => infer_expr_type schema ctx left
  | .Nested inner => infer_expr_type schema ctx inner
  | .Extract => .ok ("extract", .F64)
  | .Ceil => .ok ("ceil", .F64)
  | .Floor => .ok ("floor", .F64)
  | .Position => .ok ("position", .I32)
  | .Substring => .ok ("substring", .String)
  | .Trim => .ok ("trim", .String)
  | .Overlay => .ok ("overlay", .String)
  | .otherExpr => .ok ("?column?", .String)
termination_by structural expr

/-- Source: `get_first_arg_type` — type the first unnamed expression
argument, if any. -/
def get_first_arg_type (schema : Schema) (ctx : ResolveContext)
    (args : FunctionArguments) : Except Error (Option RustType) :=
  match args with
  | .ArgList (FunctionArg.Unnamed (.ExprArg e) :: _) => do
    let (_, inner_type) ← infer_expr_type schema ctx e
    .ok (some inner_type)
  | .ArgList _ => .ok none
  | .NoneArgs => .ok none
  | .Subquery => .ok none
termination_by structural args
end

/-! ## `validate.rs`: statement validator (SELECT side) -/

/-- The columns one FROM-clause alias contributes to an unqualified `*`
projection (the per-entry body of the `SelectItem::Wildcard` loop in
`validate_select_body_with_ctx`): CTE-bound aliases expand their recorded
CTE columns, schema-bound aliases their table columns, anything else
contributes nothing. -/
def wildcard_alias_columns (schema : Schema) (ctx : ResolveContext)
    (alias_ table_ref : String) : List QueryColumn :=
  match cte_ref_name table_ref with
  | some cte_name =>
    match ctx.get_cte cte_name with
    | some cte =>
      cte.columns.map fun cte_col =>
        { name := cte_col.name
          rust_type :=
            if ctx.is_nullable_table alias_ then cte_col.rust_type.nullable
            else cte_col.rust_type }
    | none => []
  | none =>
    match schema.get_table table_ref with
    | some table =>
      table.columns.map fun col =>
        { name := col.name
          rust_type :=
            if col.nullable || ctx.is_nullable_table alias_ then
              col.data_type.to_rust_type.nullable
            else col.data_type.to_rust_type }
    | none => []

/-- The full `SelectItem::Wildcard` expansion over an enumeration of the
alias map. The Rust source iterates `&ctx.table_aliases`, a `HashMap` whose
iteration order is unspecified; `entries` is that enumeration order, and the
validator model instantiates it with the insertion order of the map. -/
def wildcard_columns (schema : Schema) (ctx : ResolveContext)
    (entries : List (String × String)) : List QueryColumn :=
  (entries.map fun p => wildcard_alias_columns schema ctx p.1 p.2).flatten

/-- Source: the `SelectItem::QualifiedWildcard` arm of
`validate_select_body_with_ctx` (`T.*`). -/
def qualified_wildcard_columns (schema : Schema) (ctx : ResolveContext)
    (kind : SelectItemQualifiedWildcardKind) :
    Except Error (List QueryColumn) :=
  match kind with
  | .ExprKind => .error (.InvalidQuery "Expression wildcards not supported")
  | .ObjectNameKind parts =>
    match parts.head? with
    | none => .error (.InvalidQuery "Empty qualified wildcard")
    | some table_alias =>
      match alistLookup ctx.table_aliases (lowerStr table_alias) with
      | none => .error (.UnknownTable table_alias)
      | some table_ref =>
        match cte_ref_name table_ref with
        | some cte_name =>
          (match ctx.get_cte cte_name with
          | none => .error (.UnknownTable cte_name)
          | some cte =>
            .ok (cte.columns.map fun cte_col =>
              { name := cte_col.name
                rust_type :=
                  if ctx.is_nullable_table table_alias then
                    cte_col.rust_type.nullable
                  else cte_col.rust_type }))
        | none =>
          match schema.get_table table_ref with
          | none => .error (.UnknownTable table_ref)
          | some table =>
            .ok (table.columns.map fun col =>
              { name := col.name
                rust_type :=
                  if col.nullable || ctx.is_nullable_table table_alias then
                    col.data_type.to_rust_type.nullable
                  else col.data_type.to_rust_type })

/-- The projection loop of `validate_select_body_with_ctx`. -/
def project_items (schema : Schema) (ctx : ResolveContext) :
    List SelectItem → Except Error (List QueryColumn)
  | [] => .ok []
  | item :: rest => do
    let cols ←
      match item with
      | .UnnamedExpr e => do
        let (name, rust_type) ← infer_expr_type schema ctx e
        pure [{ name := name, rust_type := rust_type }]
      | .ExprWithAlias e alias_ => do
        let (_, rust_type) ← infer_expr_type schema ctx e
        pure [{ name := alias_, rust_type := rust_type }]
      | .Wildcard => pure (wildcard_columns schema ctx ctx.table_aliases)
      | .QualifiedWildcard kind => qualified_wildcard_columns schema ctx kind
    let more ← project_items schema ctx rest
    .ok (cols ++ more)

/-- Source: `validate_select_body_with_ctx` — resolve the FROM clause into
the context, then type every projected item. -/
def validate_select_body_with_ctx (schema : Schema) (select : Select)
    (ctx : ResolveContext) : Except Error QueryResult := do
  let ctx ← resolve_froms schema select.from_ ctx
  let columns ← project_items schema ctx select.projection
  .ok { columns := columns }

/-- Source: `set_op_name`. -/
def set_op_name : SetOperator → String
  | .Union => "UNION"
  | .Intersect => "INTERSECT"
  | .Except => "EXCEPT"
  | .Minus => "MINUS"

/-- The `InvalidQuery` message built by `validate_set_expr` on a set-operation
column-count mismatch. -/
def set_op_mismatch_msg (op : SetOperator) (leftLen rightLen : Nat) : String :=
  let opName := set_op_name op
  s!"{opName} requires both sides to have the same number of columns (left: {leftLen}, right: {rightLen})"

/-- Rename the leading CTE columns with the CTE's explicit column aliases
(the `zip`/`map` in `validate_select`; `zip` truncates to the shorter list). -/
def apply_cte_aliases (columns : List QueryColumn) (names : List String) :
    List QueryColumn :=
  (columns.zip names).map fun p => { p.1 with name := p.2 }

mutual
/-- Source: `validate_select` — process the WITH clause in declaration order
(each CTE body validated by a recursive call with a fresh context), then
validate the body with the accumulated context. -/
def validate_select (schema : Schema) (query : Query) :
    Except Error QueryResult :=
  match query with
  | .mk withCtes body => do
    let ctx ←
      match withCtes with
      | some cte_tables => process_ctes schema cte_tables ResolveContext.empty
      | none => pure ResolveContext.empty
    validate_set_expr schema body ctx
termination_by structural query

/-- The CTE loop of `validate_select`. -/
def process_ctes (schema : Schema) (ctes : List Cte) (ctx : ResolveContext) :
    Except Error ResolveContext :=
  match ctes with
  | [] => .ok ctx
  | .mk cte_name alias_columns cte_query :: rest => do
    let cte_result ← validate_select schema cte_query
    let columns :=
      if ¬ alias_columns.isEmpty then
        apply_cte_aliases cte_result.columns alias_columns
      else cte_result.columns
    process_ctes schema rest (ctx.add_cte cte_name columns)
termination_by structural ctes

/-- Source: `validate_set_expr` — a plain `SELECT` keeps the incoming
context; a set operation validates both sides with a fresh
`ResolveContext::default()` each and checks the column counts. -/
def validate_set_expr (schema : Schema) (set_expr : SetExpr)
    (ctx : ResolveContext) : Except Error QueryResult :=
  match set_expr with
  | .SelectE select => validate_select_body_with_ctx schema select ctx
  | .SetOperation op left right => do
    let left_result ← validate_set_expr schema left ResolveContext.empty
    let right_result ← validate_set_expr schema right ResolveContext.empty
    if left_result.columns.length ≠ right_result.columns.length then
      .error (.InvalidQuery
        (set_op_mismatch_msg op left_result.columns.length
          right_result.columns.length))
    else
      .ok left_result
  | .QueryE subquery => validate_select schema subquery
  | .otherSetExpr =>
    .error (.InvalidQuery
      "Only SELECT and set operations (UNION/INTERSECT/EXCEPT) are supported")
termination_by structural set_expr
end

/-! ## Concrete fixtures

The schema of the crate's own test-suite DDL (`users`, `profiles`) given both
as catalog values and as the DDL statement list they are built from. -/

deriving instance DecidableEq for Except

/-- `users(id uuid NOT NULL PK, name text NOT NULL, email text NOT NULL,
metadata jsonb NOT NULL DEFAULT ...)`. -/
def usersTable : Table :=
  { name := "users"
    columns :=
      [ ⟨"id", .Uuid, false, false, true, false⟩,
        ⟨"name", .Text, false, false, false, false⟩,
        ⟨"email", .Text, false, false, false, false⟩,
        ⟨"metadata", .Jsonb, false, true, false, false⟩ ]
    column_map := [("id", 0), ("name", 1), ("email", 2), ("metadata", 3)] }

/-- `profiles(id uuid NOT NULL PK, user_id uuid NOT NULL, bio text,
avatar_url text)`. -/
def profilesTable : Table :=
  { name := "profiles"
    columns :=
      [ ⟨"id", .Uuid, false, false, true, false⟩,
        ⟨"user_id", .Uuid, false, false, false, false⟩,
        ⟨"bio", .Text, true, false, false, false⟩,
        ⟨"avatar_url", .Text, true, false, false, false⟩ ]
    column_map := [("id", 0), ("user_id", 1), ("bio", 2), ("avatar_url", 3)] }

def testSchema : Schema := ⟨[("users", usersTable), ("profiles", profilesTable)]⟩

/-- The DDL statement list of the test schema, as `CREATE TABLE` AST values. -/
def testSchemaDdl : List DdlStatement :=
  [ .CreateTableStmt
      ⟨["users"],
        [ ⟨"id", .Uuid, [.NotNull]⟩,
          ⟨"name", .Text, [.NotNull]⟩,
          ⟨"email", .Text, [.NotNull]⟩,
          ⟨"metadata", .JSONB, [.NotNull, .DefaultVal]⟩ ],
        [.PrimaryKeyC ["id"]]⟩,
    .CreateTableStmt
      ⟨["profiles"],
        [ ⟨"id", .Uuid, [.NotNull]⟩,
          ⟨"user_id", .Uuid, [.NotNull]⟩,
          ⟨"bio", .Text, []⟩,
          ⟨"avatar_url", .Text, []⟩ ],
        [.PrimaryKeyC ["id"]]⟩ ]

/-- Sanity: the catalog fixture is exactly what the catalog builder produces
from the test DDL. -/
theorem testSchema_from_ddl :
    Schema.from_statements testSchemaDdl = .ok testSchema := by decide

/-- `FROM t` (a single unaliased table factor). -/
def fromTable (t : String) : TableWithJoins := ⟨.TableF [t] none, []⟩

/-- `SELECT id FROM t`. -/
def selIdFrom (t : String) : Select :=
  ⟨[.UnnamedExpr (.Identifier "id")], [fromTable t]⟩

/-! ## Claim C1 — CTE visibility -/

/-- `WITH c1 AS (SELECT id FROM users), c2 AS (SELECT id FROM c1)
SELECT id FROM c2`. -/
def qC1 : Query :=
  .mk (some
    [ .mk "c1" [] (.mk none (.SelectE (selIdFrom "users"))),
      .mk "c2" [] (.mk none (.SelectE (selIdFrom "c1"))) ])
    (.SelectE (selIdFrom "c2"))

/-- `WITH c1 AS (SELECT id FROM users) SELECT id FROM c1`. -/
def qC1outer : Query :=
  .mk (some [.mk "c1" [] (.mk none (.SelectE (selIdFrom "users")))])
    (.SelectE (selIdFrom "c1"))

/-- C1: the spec says that in `WITH c1 AS (Q1), c2 AS (Q2) Q3` the earlier
CTE `c1` is visible while resolving `Q2`. The code is not like that:
`validate_select` validates every CTE body with a fresh
`ResolveContext::default()`, so a `FROM c1` inside `Q2` fails with
`UnknownTable("c1")` even though the same reference succeeds in the outer
body `Q3` (second conjunct). This rejects a valid PostgreSQL query, contrary
to the spec's stated CTE-visibility rule. -/
theorem C1_cte_not_visible_to_later_cte :
    validate_select testSchema qC1 = .error (.UnknownTable "c1") ∧
    validate_select testSchema qC1outer =
      .ok ⟨[⟨"id", .Uuid⟩]⟩ := by decide

/-! ## Claim C4 — `SELECT *` expansion order -/

/-- The context produced by resolving `FROM users, profiles`. -/
def ctxC4 : ResolveContext :=
  ⟨[("users", "users"), ("profiles", "profiles")], [], []⟩

/-- C4: the spec says an unqualified `*` expands the FROM-clause aliases in
their textual order and that validation is deterministic. The code iterates
`ctx.table_aliases`, a Rust `HashMap` whose iteration order is an unspecified
permutation of its entries (and varies run to run with the hash seed). Both
enumeration orders below are permutations (the map itself and its reversal)
of the resolved alias map of
`SELECT * FROM users, profiles`, yet they produce different column lists, so
the FROM-clause order (and order determinism) is not guaranteed by the code:
only the insertion-order enumeration yields users' columns followed by
profiles'. -/
theorem C4_wildcard_order_unspecified :
    resolve_froms testSchema [fromTable "users", fromTable "profiles"]
        ResolveContext.empty = .ok ctxC4 ∧
    ctxC4.table_aliases.reverse = [("profiles", "profiles"), ("users", "users")] ∧
    wildcard_columns testSchema ctxC4 ctxC4.table_aliases =
      (usersTable.columns.map fun c =>
        ⟨c.name, if c.nullable then c.data_type.to_rust_type.nullable
                 else c.data_type.to_rust_type⟩) ++
      (profilesTable.columns.map fun c =>
        ⟨c.name, if c.nullable then c.data_type.to_rust_type.nullable
                 else c.data_type.to_rust_type⟩) ∧
    wildcard_columns testSchema ctxC4
        [("profiles", "profiles"), ("users", "users")] ≠
      wildcard_columns testSchema ctxC4 ctxC4.table_aliases := by decide

/-! ## Claim C7 — qualified table names in CREATE TABLE -/

/-- `CREATE TABLE public.users (id uuid NOT NULL, name text NOT NULL,
CONSTRAINT ... PRIMARY KEY (id))`. -/
def publicUsersCreate : CreateTable :=
  ⟨["public", "users"],
    [⟨"id", .Uuid, [.NotNull]⟩, ⟨"name", .Text, [.NotNull]⟩],
    [.PrimaryKeyC ["id"]]⟩

/-- C7: the spec says the catalog builder keeps only the last identifier part
of a qualified object name and keys tables case-folded and unique under
case-folding. The code instead joins all parts with `.`
(`object_name_to_string`), so `CREATE TABLE public.users …` is stored under
the name `public.users` and a `FROM users` reference no longer finds it;
moreover the map is keyed by the original spelling, and two tables that
differ only in case coexist, violating the uniqueness-under-case-folding
invariant. -/
theorem C7_qualified_name_not_last_part :
    (Table.from_create_table publicUsersCreate).map Table.name =
      .ok "public.users" ∧
    (Schema.from_statements [.CreateTableStmt publicUsersCreate]).map
        (fun s => (s.has_table "users", s.has_table "public.users")) =
      .ok (false, true) ∧
    (Schema.from_statements
        [ .CreateTableStmt ⟨["Users"], [⟨"id", .Uuid, [.NotNull]⟩], []⟩,
          .CreateTableStmt ⟨["users"], [⟨"id", .Uuid, [.NotNull]⟩], []⟩ ]).map
        (fun s => s.tables.map Prod.fst) =
      .ok ["Users", "users"] := by decide

/-! ## Claim C8 — totality of the SQL-type-name parser -/

/-- C8: the spec says the parser is total (no input fails), case-insensitive,
and recognizes every type form with a `Custom` fallback. The recognitions and
the fallback hold (later conjuncts), but the parser is not total: on
`"char)("` the first `)` precedes the first `(`, and `parse_length` slices
`s[start + 1..end]` with `start + 1 > end`, which panics in Rust (first two
conjuncts; `none` models the panic). -/
theorem C8_from_sql_name_not_total :
    from_sql_nameS "char)(" = none ∧
    parse_length "char)(".data = none ∧
    from_sql_nameS "varchar(255)" = some (.Varchar (some 255)) ∧
    from_sql_nameS "VarChar(255)" = some (.Varchar (some 255)) ∧
    from_sql_nameS "TEXT[]" = some (.Array .Text) ∧
    from_sql_nameS "text array" = some (.Array .Text) ∧
    from_sql_nameS "UUID" = some .Uuid ∧
    from_sql_nameS "double precision" = some .DoublePrecision ∧
    from_sql_nameS "my_enum" = some (.Custom "my_enum") := by
  unfold from_sql_nameS from_sql_name
  unfold from_sql_name
  decide

/-! ## Claim C9 — empty projection list -/

/-- `SELECT FROM users` (empty projection list) as an AST value. -/
def qC9 : Query := .mk none (.SelectE ⟨[], [fromTable "users"]⟩)

/-- C9 counterexample: the claim says an empty projection list yields
`InvalidQuery`; the projection loop of `validate_select_body_with_ctx` simply
runs zero times and the query validates successfully with an empty column
list. -/
theorem C9_counterexample :
    validate_select testSchema qC9 = .ok ⟨[]⟩ := by decide

/-- C9 amended: a SELECT whose projection list is empty is not rejected;
whenever its FROM clause resolves, validation succeeds with an empty
`QueryResult`. -/
theorem C9_empty_projection_ok (schema : Schema) (sel : Select)
    (ctx ctx' : ResolveContext) (hproj : sel.projection = [])
    (hres : resolve_froms schema sel.from_ ctx = .ok ctx') :
    validate_select_body_with_ctx schema sel ctx = .ok ⟨[]⟩ := by
  unfold validate_select_body_with_ctx
  rw [hres, hproj]
  rfl

/-- Witness for C9: the amended theorem applied to `SELECT FROM users`. -/
theorem C9_empty_projection_ok_witness :
    validate_select_body_with_ctx testSchema ⟨[], [fromTable "users"]⟩
      ResolveContext.empty = .ok ⟨[]⟩ :=
  C9_empty_projection_ok testSchema ⟨[], [fromTable "users"]⟩
    ResolveContext.empty ⟨[("users", "users")], [], []⟩ rfl (by decide)

/-! ## Claim C3 — set-operation conformance -/

/-- C3: `validate(A op B)` succeeds iff both sides validate in a fresh scope
(the incoming context `ctx` — carrying any outer CTEs — is discarded; both
sides get `ResolveContext::default()`) and the column counts agree; on
success the result is exactly the left side's result; on a count mismatch the
error is `InvalidQuery` with the message naming the operator and both counts
(last conjunct spells the message out). -/
theorem C3_set_operation (schema : Schema) (ctx : ResolveContext)
    (op : SetOperator) (l r : SetExpr) :
    ((∃ res, validate_set_expr schema (.SetOperation op l r) ctx = .ok res) ↔
      (∃ lr rr, validate_set_expr schema l ResolveContext.empty = .ok lr ∧
        validate_set_expr schema r ResolveContext.empty = .ok rr ∧
        lr.columns.length = rr.columns.length)) ∧
    (∀ res, validate_set_expr schema (.SetOperation op l r) ctx = .ok res →
      validate_set_expr schema l ResolveContext.empty = .ok res) ∧
    (∀ lr rr, validate_set_expr schema l ResolveContext.empty = .ok lr →
      validate_set_expr schema r ResolveContext.empty = .ok rr →
      lr.columns.length ≠ rr.columns.length →
      validate_set_expr schema (.SetOperation op l r) ctx =
        .error (.InvalidQuery
          (set_op_mismatch_msg op lr.columns.length rr.columns.length))) ∧
    (∀ a b : Nat, set_op_mismatch_msg op a b =
      set_op_name op ++
        " requires both sides to have the same number of columns (left: " ++
        toString a ++ ", right: " ++ toString b ++ ")") := by
  have hmsg : ∀ a b : Nat, set_op_mismatch_msg op a b =
      set_op_name op ++
        " requires both sides to have the same number of columns (left: " ++
        toString a ++ ", right: " ++ toString b ++ ")" := by
    intro a b
    rfl
  refine ⟨?_, ?_, ?_, hmsg⟩
  · constructor
    · intro ⟨res, hres⟩
      unfold validate_set_expr at hres
      cases hl : validate_set_expr schema l ResolveContext.empty with
      | error e => rw [hl] at hres; exact absurd hres (by simp [Bind.bind, Except.bind])
      | ok lr =>
        cases hr : validate_set_expr schema r ResolveContext.empty with
        | error e => rw [hl, hr] at hres; exact absurd hres (by simp [Bind.bind, Except.bind])
        | ok rr =>
          rw [hl, hr] at hres
          simp only [Bind.bind, Except.bind] at hres
          by_cases hlen : lr.columns.length = rr.columns.length
          · exact ⟨lr, rr, rfl, rfl, hlen⟩
          · simp [hlen] at hres
    · intro ⟨lr, rr, hl, hr, hlen⟩
      refine ⟨lr, ?_⟩
      unfold validate_set_expr
      rw [hl, hr]
      simp [Bind.bind, Except.bind, hlen]
  · intro res hres
    unfold validate_set_expr at hres
    cases hl : validate_set_expr schema l ResolveContext.empty with
    | error e => rw [hl] at hres; exact absurd hres (by simp [Bind.bind, Except.bind])
    | ok lr =>
      cases hr : validate_set_expr schema r ResolveContext.empty with
      | error e => rw [hl, hr] at hres; exact absurd hres (by simp [Bind.bind, Except.bind])
      | ok rr =>
        rw [hl, hr] at hres
        simp only [Bind.bind, Except.bind] at hres
        by_cases hlen : lr.columns.length = rr.columns.length
        · simp [hlen] at hres
          rw [hres]
        · simp [hlen] at hres
  · intro lr rr hl hr hlen
    unfold validate_set_expr
    rw [hl, hr]
    simp [Bind.bind, Except.bind, hlen]

/-- Witness for C3: `SELECT id FROM users UNION SELECT id, name FROM users`
fails with the exact message naming UNION and the counts 1 and 2. -/
theorem C3_set_operation_witness :
    validate_set_expr testSchema
      (.SetOperation .Union (.SelectE (selIdFrom "users"))
        (.SelectE ⟨[.UnnamedExpr (.Identifier "id"),
                    .UnnamedExpr (.Identifier "name")], [fromTable "users"]⟩))
      ResolveContext.empty =
    .error (.InvalidQuery
      "UNION requires both sides to have the same number of columns (left: 1, right: 2)") := by
  have h := (C3_set_operation testSchema ResolveContext.empty .Union
    (.SelectE (selIdFrom "users"))
    (.SelectE ⟨[.UnnamedExpr (.Identifier "id"),
                .UnnamedExpr (.Identifier "name")], [fromTable "users"]⟩)).2.2.1
    ⟨[⟨"id", .Uuid⟩]⟩ ⟨[⟨"id", .Uuid⟩, ⟨"name", .String⟩]⟩
    (by decide) (by decide) (by decide)
  exact h

/-! ## Claim C2 — unqualified column resolution -/

/-- The CTE-bound aliases of `l` whose recorded columns contain `col_name`
(case-insensitive), in order — the matches `find_column_in_ctes` scans. -/
def cte_matches_on (ctx : ResolveContext) (col_name : String)
    (l : List (String × String)) : List (String × RustType) :=
  l.filterMap fun p =>
    match cte_ref_name p.2 with
    | some cte_name =>
      match ctx.get_cte cte_name with
      | some cte =>
        (cte.columns.find? (fun c => lowerEq c.name col_name)).map
          fun col => (p.1, col.rust_type)
      | none => none
    | none => none

/-- The schema-bound aliases of `l` whose table contains `col_name` — the
matches `find_column_in_tables` scans. -/
def table_matches_on (schema : Schema) (col_name : String)
    (l : List (String × String)) : List (String × Column) :=
  l.filterMap fun p =>
    if "_cte:".data.isPrefixOf p.2.data then none
    else
      match schema.get_table p.2 with
      | some table => (table.get_column col_name).map fun c => (p.1, c)
      | none => none

theorem find_column_in_ctes_go_spec (ctx : ResolveContext) (col : String)
    (l : List (String × String)) (found : Option (String × RustType)) :
    find_column_in_ctes_go ctx col l found =
      match found with
      | none =>
        match cte_matches_on ctx col l with
        | [m] => some m
        | _ => none
      | some f =>
        match cte_matches_on ctx col l with
        | [] => some f
        | _ => none := by
  induction l generalizing found with
  | nil => cases found <;> rfl
  | cons p rest ih =>
    obtain ⟨alias_, tref⟩ := p
    cases hcr : cte_ref_name tref with
    | none =>
      have hstep : cte_matches_on ctx col ((alias_, tref) :: rest) =
          cte_matches_on ctx col rest := by
        simp only [cte_matches_on, List.filterMap_cons, hcr]
      simp only [find_column_in_ctes_go, hcr, hstep]
      exact ih found
    | some cte_name =>
      cases hget : ctx.get_cte cte_name with
      | none =>
        have hstep : cte_matches_on ctx col ((alias_, tref) :: rest) =
            cte_matches_on ctx col rest := by
          simp only [cte_matches_on, List.filterMap_cons, hcr, hget]
        simp only [find_column_in_ctes_go, hcr, hget, hstep]
        exact ih found
      | some cte =>
        cases hfind : cte.columns.find? (fun c => lowerEq c.name col) with
        | none =>
          have hstep : cte_matches_on ctx col ((alias_, tref) :: rest) =
              cte_matches_on ctx col rest := by
            simp only [cte_matches_on, List.filterMap_cons, hcr, hget, hfind,
              Option.map_none']
          simp only [find_column_in_ctes_go, hcr, hget, hfind, hstep]
          exact ih found
        | some c =>
          have hstep : cte_matches_on ctx col ((alias_, tref) :: rest) =
              (alias_, c.rust_type) :: cte_matches_on ctx col rest := by
            simp only [cte_matches_on, List.filterMap_cons, hcr, hget, hfind,
              Option.map_some']
          simp only [find_column_in_ctes_go, hcr, hget, hfind, hstep]
          cases found with
          | none =>
            simp only [Option.isSome_none, Bool.false_eq_true, if_false]
            rw [ih]
            cases hrest : cte_matches_on ctx col rest <;> simp
          | some f => simp

theorem find_column_in_tables_go_spec (schema : Schema) (col : String)
    (l : List (String × String)) (found : Option (String × Column)) :
    find_column_in_tables_go schema col l found =
      match found with
      | none =>
        match table_matches_on schema col l with
        | [] => .error (.UnknownColumn "<unknown>" col)
        | [m] => .ok m
        | _ :: _ :: _ => .error (.AmbiguousColumn col)
      | some f =>
        match table_matches_on schema col l with
        | [] => .ok f
        | _ :: _ => .error (.AmbiguousColumn col) := by
  induction l generalizing found with
  | nil => cases found <;> rfl
  | cons p rest ih =>
    obtain ⟨alias_, tname⟩ := p
    by_cases hcte : "_cte:".data.isPrefixOf tname.data
    · have hstep : table_matches_on schema col ((alias_, tname) :: rest) =
          table_matches_on schema col rest := by
        simp only [table_matches_on, List.filterMap_cons, if_pos hcte]
      simp only [find_column_in_tables_go, if_pos hcte, hstep]
      exact ih found
    · cases hget : schema.get_table tname with
      | none =>
        have hstep : table_matches_on schema col ((alias_, tname) :: rest) =
            table_matches_on schema col rest := by
          simp only [table_matches_on, List.filterMap_cons, if_neg hcte, hget]
        simp only [find_column_in_tables_go, if_neg hcte, hget, hstep]
        exact ih found
      | some table =>
        cases hcol : table.get_column col with
        | none =>
          have hstep : table_matches_on schema col ((alias_, tname) :: rest) =
              table_matches_on schema col rest := by
            simp only [table_matches_on, List.filterMap_cons, if_neg hcte,
              hget, hcol, Option.map_none']
          simp only [find_column_in_tables_go, if_neg hcte, hget, hcol, hstep]
          exact ih found
        | some c =>
          have hstep : table_matches_on schema col ((alias_, tname) :: rest) =
              (alias_, c) :: table_matches_on schema col rest := by
            simp only [table_matches_on, List.filterMap_cons, if_neg hcte,
              hget, hcol, Option.map_some']
          simp only [find_column_in_tables_go, if_neg hcte, hget, hcol, hstep]
          cases found with
          | none =>
            simp only [Option.isSome_none, Bool.false_eq_true, if_false]
            rw [ih]
            cases hrest : table_matches_on schema col rest <;> simp
          | some f => simp

/-- The CTE-bound matches scanned by `find_column_in_ctes`. -/
def cte_matches (ctx : ResolveContext) (col_name : String) :
    List (String × RustType) :=
  cte_matches_on ctx col_name ctx.table_aliases

/-- The schema-bound matches scanned by `find_column_in_tables`. -/
def table_matches (schema : Schema) (ctx : ResolveContext)
    (col_name : String) : List (String × Column) :=
  table_matches_on schema col_name ctx.table_aliases

/-- `WITH a AS (SELECT id FROM users), b AS (SELECT id FROM users)
SELECT id FROM a, b`: the unqualified `id` matches both CTE aliases. -/
def qC2 : Query :=
  .mk (some
    [ .mk "a" [] (.mk none (.SelectE (selIdFrom "users"))),
      .mk "b" [] (.mk none (.SelectE (selIdFrom "users"))) ])
    (.SelectE ⟨[.UnnamedExpr (.Identifier "id")],
      [fromTable "a", fromTable "b"]⟩)

/-- C2 counterexample: the claim says two or more matches in the searched
group yield `AmbiguousColumn`. With two CTE matches the code instead has
`find_column_in_ctes` return `None` (the source's commented fall-through),
the schema search then finds nothing, and the error is
`UnknownColumn{<unknown>, id}` — not `AmbiguousColumn(id)`. -/
theorem C2_counterexample :
    validate_select testSchema qC2 =
      .error (.UnknownColumn "<unknown>" "id") ∧
    validate_select testSchema qC2 ≠ .error (.AmbiguousColumn "id") := by
  decide

/-- C2 amended: unqualified resolution searches CTE-bound aliases first and
uses a unique CTE match, else searches schema-bound aliases and uses a unique
match; two or more *schema* matches yield `AmbiguousColumn` and zero matches
overall yield `UnknownColumn{<unknown>, c}`, but two or more *CTE* matches
make the CTE search return nothing, falling through to the schema search
instead of raising `AmbiguousColumn`. -/
theorem C2_column_resolution (schema : Schema) (ctx : ResolveContext)
    (col : String) :
    (find_column_in_ctes ctx col =
      match cte_matches ctx col with
      | [m] => some m
      | _ => none) ∧
    (find_column_in_tables schema ctx col =
      match table_matches schema ctx col with
      | [] => .error (.UnknownColumn "<unknown>" col)
      | [m] => .ok m
      | _ :: _ :: _ => .error (.AmbiguousColumn col)) ∧
    (∀ al rt, find_column_in_ctes ctx col = some (al, rt) →
      infer_expr_type schema ctx (.Identifier col) =
        .ok (col, if ctx.is_nullable_table al then rt.nullable else rt)) := by
  refine ⟨?_, ?_, ?_⟩
  · exact find_column_in_ctes_go_spec ctx col ctx.table_aliases none
  · exact find_column_in_tables_go_spec schema col ctx.table_aliases none
  · intro al rt hfind
    unfold infer_expr_type
    simp only [hfind]

/-- Witness for C2's amended theorem: a context with a single CTE alias `a`
recording a column `id : Uuid` resolves the unqualified `id` through the CTE
search. -/
theorem C2_column_resolution_witness :
    infer_expr_type testSchema
      ⟨[("a", "_cte:a")], [], [("a", ⟨[⟨"id", .Uuid⟩]⟩)]⟩
      (.Identifier "id") = .ok ("id", .Uuid) :=
  (C2_column_resolution testSchema
    ⟨[("a", "_cte:a")], [], [("a", ⟨[⟨"id", .Uuid⟩]⟩)]⟩ "id").2.2
    "a" .Uuid (by decide)

/-! ## Claim C6 — `min`/`max` result types -/

/-- The outer-`Option` strip in the `min`/`max` arm of `infer_expr_type`
(`match inner_type { Option(t) => *t, t => t }`). -/
def strip_nullable : RustType → RustType
  | .Option t => t
  | t => t

/-- C6: for `min(e)`/`max(e)` (function-name lookup is on the lower-cased
last name part), when the first argument's type is inferable the result is
`Option(T)` with `T` the argument type stripped of its outer `Option`, and
`Option(String)` when there is no typeable first argument – so a nullable
argument column still yields a single `Option` layer. -/
theorem C6_min_max_type (schema : Schema) (ctx : ResolveContext)
    (name : List String) (args : FunctionArguments)
    (h : ((name.getLast?).map lowerStr).getD "" = "min" ∨
         ((name.getLast?).map lowerStr).getD "" = "max") :
    (get_first_arg_type schema ctx args = .ok none →
      infer_expr_type schema ctx (.Function name args) =
        .ok (((name.getLast?).map lowerStr).getD "", .Option .String)) ∧
    (∀ t, get_first_arg_type schema ctx args = .ok (some t) →
      infer_expr_type schema ctx (.Function name args) =
        .ok (((name.getLast?).map lowerStr).getD "",
          .Option (strip_nullable t))) := by
  have step1 : ∀ harg : get_first_arg_type schema ctx args = .ok none,
      infer_expr_type schema ctx (.Function name args) =
        .ok (((name.getLast?).map lowerStr).getD "", .Option .String) := by
    intro harg
    unfold infer_expr_type
    rcases h with h | h <;>
      (rw [h, if_neg (by decide), if_neg (by decide), if_neg (by decide),
          if_pos (by decide), harg]
       rfl)
  have step2 : ∀ (t : RustType)
      (harg : get_first_arg_type schema ctx args = .ok (some t)),
      infer_expr_type schema ctx (.Function name args) =
        .ok (((name.getLast?).map lowerStr).getD "",
          .Option (strip_nullable t)) := by
    intro t harg
    unfold infer_expr_type
    rcases h with h | h <;>
      (rw [h, if_neg (by decide), if_neg (by decide), if_neg (by decide),
          if_pos (by decide), harg]
       cases t <;> rfl)
  exact ⟨step1, step2⟩

/-- Witness for C6: `MIN(bio)` over `profiles` — `bio` is nullable
(`Option<String>`), and the result is still the single-layer
`Option<String>`. -/
theorem C6_min_max_type_witness :
    infer_expr_type testSchema ⟨[("profiles", "profiles")], [], []⟩
      (.Function ["MIN"] (.ArgList [.Unnamed (.ExprArg (.Identifier "bio"))]))
      = .ok ("min", .Option .String) :=
  (C6_min_max_type testSchema ⟨[("profiles", "profiles")], [], []⟩ ["MIN"]
    (.ArgList [.Unnamed (.ExprArg (.Identifier "bio"))])
    (Or.inl (by decide))).2 (.Option .String) (by decide)

/-! ## Claim C10 — CTE alias lists shorter than the body's column list -/

theorem apply_cte_aliases_spec (cols : List QueryColumn) (ns : List String) :
    (apply_cte_aliases cols ns).length = min cols.length ns.length ∧
    (apply_cte_aliases cols ns).map QueryColumn.name = ns.take cols.length ∧
    (apply_cte_aliases cols ns).map QueryColumn.rust_type =
      (cols.take ns.length).map QueryColumn.rust_type := by
  induction cols generalizing ns with
  | nil => simp [apply_cte_aliases]
  | cons c cs ih =>
    cases ns with
    | nil => simp [apply_cte_aliases]
    | cons n ns' =>
      obtain ⟨ih1, ih2, ih3⟩ := ih ns'
      refine ⟨?_, ?_, ?_⟩
      · simp [apply_cte_aliases, List.zip_cons_cons, Nat.succ_min_succ]
      · simpa [apply_cte_aliases, List.zip_cons_cons] using ih2
      · simpa [apply_cte_aliases, List.zip_cons_cons] using ih3

/-- C10: a CTE with an explicit column-alias list of length `k` records the
`zip` of the body's columns with the aliases, silently truncating to the
first `k` columns when `k` is smaller (first conjunct: length is the `min`,
names are the aliases, types are the leading body types); the CTE loop
records exactly that list with no arity error (second conjunct); `SELECT *`
over the CTE expands exactly the recorded columns (third conjunct); and a
qualified reference to a column absent from the recorded list fails with
`UnknownColumn` (fourth conjunct). -/
theorem C10_cte_alias_truncation :
    (∀ (cols : List QueryColumn) (ns : List String),
      (apply_cte_aliases cols ns).length = min cols.length ns.length ∧
      (apply_cte_aliases cols ns).map QueryColumn.name = ns.take cols.length ∧
      (apply_cte_aliases cols ns).map QueryColumn.rust_type =
        (cols.take ns.length).map QueryColumn.rust_type) ∧
    (∀ (schema : Schema) (nm : String) (ns : List String) (q : Query)
      (rest : List Cte) (ctx : ResolveContext) (r : QueryResult),
      validate_select schema q = .ok r → ns ≠ [] →
      process_ctes schema (.mk nm ns q :: rest) ctx =
        process_ctes schema rest
          (ctx.add_cte nm (apply_cte_aliases r.columns ns))) ∧
    (∀ (schema : Schema) (ctx : ResolveContext) (a tref nm : String)
      (cte : CteDefinition),
      cte_ref_name tref = some nm → ctx.get_cte nm = some cte →
      (wildcard_alias_columns schema ctx a tref).map QueryColumn.name =
        cte.columns.map QueryColumn.name) ∧
    (∀ (schema : Schema) (ctx : ResolveContext) (ta c tref nm : String)
      (cte : CteDefinition),
      alistLookup ctx.table_aliases (lowerStr ta) = some tref →
      cte_ref_name tref = some nm → ctx.get_cte nm = some cte →
      cte.columns.find? (fun rc => lowerEq rc.name c) = none →
      infer_expr_type schema ctx (.CompoundIdentifier [ta, c]) =
        .error (.UnknownColumn nm c)) := by
  refine ⟨apply_cte_aliases_spec, ?_, ?_, ?_⟩
  · intro schema nm ns q rest ctx r hval hns
    cases ns with
    | nil => exact absurd rfl hns
    | cons n ns' =>
      conv_lhs => rw [process_ctes]
      rw [hval]
      rfl
  · intro schema ctx a tref nm cte hcr hget
    unfold wildcard_alias_columns
    simp only [hcr, hget, List.map_map]
    rfl
  · intro schema ctx ta c tref nm cte hlookup hcr hget hfind
    unfold infer_expr_type
    simp only [hlookup, hcr, hget, hfind]

/-- `SELECT id, name FROM users` (the body of the truncated CTE). -/
def qInnerC10 : Query :=
  .mk none (.SelectE ⟨[.UnnamedExpr (.Identifier "id"),
                       .UnnamedExpr (.Identifier "name")], [fromTable "users"]⟩)

/-- The context after recording `WITH v(a) AS (SELECT id, name FROM users)`
and resolving `FROM v`. -/
def ctxC10 : ResolveContext :=
  ⟨[("v", "_cte:v")], [], [("v", ⟨[⟨"a", .Uuid⟩]⟩)]⟩

/-- Witness for C10: `WITH v(a) AS (SELECT id, name FROM users)` records only
`a : Uuid` (the body's `name` column is dropped); the CTE loop records
exactly the truncated list; `SELECT * FROM v` produces just `a`; and `v.name`
is unresolvable. -/
theorem C10_cte_alias_truncation_witness :
    (apply_cte_aliases [⟨"id", .Uuid⟩, ⟨"name", .String⟩] ["a"]).map
        QueryColumn.name = ["a"].take 2 ∧
    process_ctes testSchema [.mk "v" ["a"] qInnerC10] ResolveContext.empty =
      process_ctes testSchema []
        (ResolveContext.empty.add_cte "v"
          (apply_cte_aliases [⟨"id", .Uuid⟩, ⟨"name", .String⟩] ["a"])) ∧
    (wildcard_alias_columns testSchema ctxC10 "v" "_cte:v").map
        QueryColumn.name =
      ([⟨"a", .Uuid⟩] : List QueryColumn).map QueryColumn.name ∧
    infer_expr_type testSchema ctxC10 (.CompoundIdentifier ["v", "name"]) =
      .error (.UnknownColumn "v" "name") :=
  ⟨(C10_cte_alias_truncation.1 [⟨"id", .Uuid⟩, ⟨"name", .String⟩] ["a"]).2.1,
   C10_cte_alias_truncation.2.1 testSchema "v" ["a"] qInnerC10 []
     ResolveContext.empty ⟨[⟨"id", .Uuid⟩, ⟨"name", .String⟩]⟩
     (by decide) (by decide),
   C10_cte_alias_truncation.2.2.1 testSchema ctxC10 "v" "_cte:v" "v"
     ⟨[⟨"a", .Uuid⟩]⟩ (by decide) (by decide),
   C10_cte_alias_truncation.2.2.2 testSchema ctxC10 "v" "name" "_cte:v" "v"
     ⟨[⟨"a", .Uuid⟩]⟩ (by decide) (by decide) (by decide) (by decide)⟩

/-! ## Claim C5 — LEFT-join nullability of `SELECT *` -/

/-- Whether the outermost constructor of a `RustType` is the `Option`
wrapper. -/
def is_option_type (t : RustType) : Bool :=
  match t with
  | .Option _ => true
  | _ => false

/-- `to_rust_type` never produces an outer `Option`: nullability is added only
by `RustType::nullable`. -/
theorem to_rust_type_not_option (pt : PostgresType) :
    is_option_type pt.to_rust_type = false := by
  cases pt <;> rfl

theorem toNat_ofNat_add32 (c : Char) (h : 65 ≤ c.toNat ∧ c.toNat ≤ 90) :
    (Char.ofNat (c.toNat + 32)).toNat = c.toNat + 32 := by
  have hval : Nat.isValidChar (c.toNat + 32) := by
    left
    omega
  simp only [Char.ofNat, Char.toNat, Char.ofNatAux] at *
  rw [dif_pos hval]
  rfl

theorem lowerChar_idem (c : Char) : lowerChar (lowerChar c) = lowerChar c := by
  unfold lowerChar
  by_cases h : 65 ≤ c.toNat ∧ c.toNat ≤ 90
  · have hno : ¬(65 ≤ (Char.ofNat (c.toNat + 32)).toNat ∧
        (Char.ofNat (c.toNat + 32)).toNat ≤ 90) := by
      rw [toNat_ofNat_add32 c h]
      omega
    rw [if_pos h, if_neg hno]
  · rw [if_neg h, if_neg h]

theorem lowerList_idem (l : List Char) : lowerList (lowerList l) = lowerList l := by
  unfold lowerList
  rw [List.map_map]
  exact List.map_congr_left fun a _ => lowerChar_idem a

theorem lowerStr_idem (s : String) : lowerStr (lowerStr s) = lowerStr s :=
  congrArg String.mk (lowerList_idem s.data)

theorem mark_nullable_is_nullable (ctx : ResolveContext) (a : String) :
    (ctx.mark_nullable a).is_nullable_table a = true := by
  unfold ResolveContext.mark_nullable ResolveContext.is_nullable_table
  by_cases h : ctx.nullable_tables.any (fun t => t = lowerStr a)
  · rw [if_pos h]
    simp only [List.any_eq_true, decide_eq_true_eq] at h ⊢
    obtain ⟨t, ht, hteq⟩ := h
    refine ⟨t, ht, ?_⟩
    unfold lowerEq
    rw [hteq, lowerStr_idem]
    simp
  · rw [if_neg h]
    simp only [List.any_eq_true]
    refine ⟨lowerStr a, by simp, ?_⟩
    unfold lowerEq
    rw [lowerStr_idem]
    simp

theorem is_nullable_table_congr (ctx ctx' : ResolveContext)
    (h : ctx'.nullable_tables = ctx.nullable_tables) (a : String) :
    ctx'.is_nullable_table a = ctx.is_nullable_table a := by
  unfold ResolveContext.is_nullable_table
  rw [h]

theorem is_nullable_mark_mono (ctx : ResolveContext) (a b : String)
    (h : ctx.is_nullable_table a = true) :
    (ctx.mark_nullable b).is_nullable_table a = true := by
  unfold ResolveContext.mark_nullable
  by_cases hb : ctx.nullable_tables.any (fun t => t = lowerStr b)
  · rw [if_pos hb]
    exact h
  · rw [if_neg hb]
    unfold ResolveContext.is_nullable_table at h ⊢
    simp only [List.any_append, h, Bool.true_or]

theorem resolve_table_factor_nullable_tables (schema : Schema)
    (f : TableFactor) (ctx ctx' : ResolveContext)
    (h : resolve_table_factor schema f ctx = .ok ctx') :
    ctx'.nullable_tables = ctx.nullable_tables := by
  cases f with
  | TableF name alias_ =>
    cases hl : name.getLast? with
    | none =>
      simp only [resolve_table_factor, hl] at h
      exact absurd h (by simp)
    | some tn =>
      simp only [resolve_table_factor, hl] at h
      split_ifs at h with h1 h2
      · injection h with h
        rw [← h]
      · injection h with h
        rw [← h]
  | Derived alias_ =>
    cases alias_ with
    | none =>
      simp only [resolve_table_factor] at h
      injection h with h
      rw [← h]
    | some a =>
      simp only [resolve_table_factor] at h
      injection h with h
      rw [← h]
  | otherFactor =>
    simp only [resolve_table_factor] at h
    injection h with h
    rw [← h]

/-- The LEFT-join group of `JoinOperator` arms (right side marked nullable). -/
def is_left_join (op : JoinOperator) : Bool :=
  match op with
  | .Left | .LeftOuter | .LeftSemi | .LeftAnti => true
  | _ => false

theorem is_nullable_opt_mark (ctx : ResolveContext) (o : Option String)
    (a : String) (h : ctx.is_nullable_table a = true) :
    (match o with
      | some al => ctx.mark_nullable al
      | none => ctx).is_nullable_table a = true := by
  cases o with
  | none => exact h
  | some al => exact is_nullable_mark_mono ctx a al h

theorem resolve_joins_nullable_mono (schema : Schema)
    (fta : Option String) (joins : List Join) :
    ∀ (ctx ctx' : ResolveContext) (a : String),
    resolve_joins schema fta joins ctx = .ok ctx' →
    ctx.is_nullable_table a = true → ctx'.is_nullable_table a = true := by
  induction joins with
  | nil =>
    intro ctx ctx' a h ha
    injection h with h
    rw [← h]
    exact ha
  | cons j rest ih =>
    intro ctx ctx' a h ha
    simp only [resolve_joins] at h
    cases hop : j.join_operator <;> simp only [hop] at h <;>
    · cases hrf : resolve_table_factor schema j.relation ctx with
      | error e =>
        rw [hrf] at h
        exact absurd h (by simp [Bind.bind, Except.bind])
      | ok c1 =>
        rw [hrf] at h
        simp only [Bind.bind, Except.bind] at h
        have hc1 : c1.is_nullable_table a = true := by
          rw [is_nullable_table_congr ctx c1
            (resolve_table_factor_nullable_tables schema j.relation ctx c1 hrf) a]
          exact ha
        first
        | exact ih _ _ a h (is_nullable_opt_mark _
            (get_table_alias j.relation) a
            (is_nullable_opt_mark c1 fta a hc1))
        | exact ih _ _ a h (is_nullable_opt_mark c1
            (get_table_alias j.relation) a hc1)
        | exact ih _ _ a h (is_nullable_opt_mark c1 fta a hc1)
        | exact ih _ _ a h hc1

theorem resolve_joins_marks_left (schema : Schema) (fta : Option String)
    (joins : List Join) :
    ∀ (ctx ctx' : ResolveContext) (j : Join) (a : String),
    j ∈ joins → is_left_join j.join_operator = true →
    get_table_alias j.relation = some a →
    resolve_joins schema fta joins ctx = .ok ctx' →
    ctx'.is_nullable_table a = true := by
  induction joins with
  | nil =>
    intro ctx ctx' j a hmem
    exact absurd hmem (List.not_mem_nil j)
  | cons j0 rest ih =>
    intro ctx ctx' j a hmem hleft halias h
    simp only [resolve_joins] at h
    rcases List.mem_cons.mp hmem with rfl | hmem'
    · cases hop : j.join_operator <;> simp only [hop] at h hleft <;>
        first
        | exact absurd hleft (by decide)
        | (cases hrf : resolve_table_factor schema j.relation ctx with
           | error e =>
             rw [hrf] at h
             exact absurd h (by simp [Bind.bind, Except.bind])
           | ok c1 =>
             rw [hrf] at h
             simp only [Bind.bind, Except.bind, halias] at h
             exact resolve_joins_nullable_mono schema fta rest _ ctx' a h
               (mark_nullable_is_nullable c1 a))
    · cases hop : j0.join_operator <;> simp only [hop] at h <;>
      · cases hrf : resolve_table_factor schema j0.relation ctx with
        | error e =>
          rw [hrf] at h
          exact absurd h (by simp [Bind.bind, Except.bind])
        | ok c1 =>
          rw [hrf] at h
          simp only [Bind.bind, Except.bind] at h
          exact ih _ _ j a hmem' hleft halias h

/-- C5: in any `FROM` clause containing a LEFT(-outer/semi/anti) join whose
relation has alias `a`, resolution marks `a` nullable (first conjunct), and
every column the alias then contributes to `SELECT *` — whether it is bound
to a schema table or to a CTE — carries an outer `Option`; for a schema-bound
alias the type is exactly `Option t` with `t` itself not an `Option`, i.e. an
already-nullable schema column is wrapped once, not twice (second
conjunct). -/
theorem C5_left_join_select_star (schema : Schema) (twj : TableWithJoins)
    (ctx ctx' : ResolveContext) (j : Join) (a : String)
    (hmem : j ∈ twj.joins) (hleft : is_left_join j.join_operator = true)
    (halias : get_table_alias j.relation = some a)
    (hres : resolve_table_refs schema twj ctx = .ok ctx') :
    ctx'.is_nullable_table a = true ∧
    ∀ table_ref qc, qc ∈ wildcard_alias_columns schema ctx' a table_ref →
      is_option_type qc.rust_type = true ∧
      (cte_ref_name table_ref = none →
        ∃ t, qc.rust_type = RustType.Option t ∧ is_option_type t = false) := by
  have hmark : ctx'.is_nullable_table a = true := by
    unfold resolve_table_refs at hres
    cases hrf : resolve_table_factor schema twj.relation ctx with
    | error e =>
      rw [hrf] at hres
      exact absurd hres (by simp [Bind.bind, Except.bind])
    | ok c1 =>
      rw [hrf] at hres
      simp only [Bind.bind, Except.bind] at hres
      exact resolve_joins_marks_left schema (get_table_alias twj.relation)
        twj.joins c1 ctx' j a hmem hleft halias hres
  refine ⟨hmark, ?_⟩
  intro table_ref qc hqc
  unfold wildcard_alias_columns at hqc
  cases hcr : cte_ref_name table_ref with
  | some cte_name =>
    simp only [hcr] at hqc
    cases hget : ctx'.get_cte cte_name with
    | none =>
      simp only [hget] at hqc
      exact absurd hqc (List.not_mem_nil qc)
    | some cte =>
      simp only [hget] at hqc
      obtain ⟨cte_col, hin, rfl⟩ := List.mem_map.mp hqc
      refine ⟨?_, ?_⟩
      · simp [hmark, RustType.nullable, is_option_type]
      · intro hnone
        exact absurd hnone (by simp)
  | none =>
    simp only [hcr] at hqc
    cases hget : schema.get_table table_ref with
    | none =>
      simp only [hget] at hqc
      exact absurd hqc (List.not_mem_nil qc)
    | some table =>
      simp only [hget] at hqc
      obtain ⟨col, hin, rfl⟩ := List.mem_map.mp hqc
      refine ⟨?_, fun _ => ?_⟩
      · simp [hmark, RustType.nullable, is_option_type]
      · refine ⟨col.data_type.to_rust_type, ?_,
          to_rust_type_not_option col.data_type⟩
        simp [hmark, RustType.nullable]

/-- `FROM users u LEFT JOIN profiles p ON …` (the ON predicate is not part of
the model; the source ignores it). -/
def twjC5 : TableWithJoins :=
  ⟨.TableF ["users"] (some "u"),
    [⟨.LeftOuter, .TableF ["profiles"] (some "p")⟩]⟩

/-- The context resolved from `twjC5`: `p` is marked nullable. -/
def ctxC5 : ResolveContext :=
  ⟨[("u", "users"), ("p", "profiles")], ["p"], []⟩

/-- Witness for C5: in `SELECT * FROM users u LEFT JOIN profiles p`, the
already-nullable `profiles.bio` contributed by `p` comes out as the
single-layer `Option<String>`. -/
theorem C5_left_join_select_star_witness :
    is_option_type (⟨"bio", RustType.Option .String⟩ : QueryColumn).rust_type
      = true ∧
    (cte_ref_name "profiles" = none →
      ∃ t, (⟨"bio", RustType.Option .String⟩ : QueryColumn).rust_type =
        RustType.Option t ∧ is_option_type t = false) :=
  (C5_left_join_select_star testSchema twjC5 ResolveContext.empty ctxC5
    ⟨.LeftOuter, .TableF ["profiles"] (some "p")⟩ "p"
    (by decide) (by decide) (by decide) (by decide)).2 "profiles"
    ⟨"bio", RustType.Option .String⟩ (by decide)
